import Mathlib

/-!
# Polygeist `Ops.h`: barrier elimination and `ValueOrInt`

A shallow embedding of `include/polygeist/Ops.h`:

* `BarrierElim<NotTopLevel>::matchAndRewrite`, the rewrite rule that decides
  whether a `polygeist.barrier` can be erased;
* `struct ValueOrInt`, the "constant or symbolic value" comparator.

Functions that `Ops.h` only declares (`getEffectsBefore`, `getEffectsAfter`,
`mayAlias`) and the MLIR matcher `matchPattern(v, m_Constant(&attr))` are
parameters of the embedding, gathered in the structure `Host`.
-/

namespace Polygeist

/-! ## Host IR data -/

/-- Identity of a non-null `mlir::Value`.  A nullable handle (a `mlir::Value`
that may be `nullptr`) is an `Option Value`. -/
structure Value where
  id : Nat
deriving DecidableEq, Repr

/-- The four `mlir::MemoryEffects` effect classes. -/
inductive Effect where
  | Allocate
  | Free
  | Read
  | Write
deriving DecidableEq, Repr

/-- A `mlir::MemoryEffects::EffectInstance`: an effect class, the value it is
applied to (absent when unknown) and the resource it lives in. -/
structure EffectInstance where
  effect : Effect
  value : Option Value
  resource : Nat
deriving DecidableEq, Repr

/-- The test `isa<MemoryEffects::Read>(e.getEffect())`. -/
def EffectInstance.isRead (e : EffectInstance) : Bool :=
  match e.effect with
  | Effect.Read => true
  | _ => false

/-- Kind of an operation, as far as `isa<...>` is asked about it. -/
inductive OpKind where
  | scfParallel
  | affineParallel
  | other (name : Nat)
deriving DecidableEq, Repr

/-- The test `isa<mlir::scf::ParallelOp, mlir::AffineParallelOp>(op)`. -/
def OpKind.isParallel : OpKind → Bool
  | OpKind.scfParallel => true
  | OpKind.affineParallel => true
  | OpKind.other _ => false

/-- A `polygeist::BarrierOp`: its identity in the instruction graph, its
operands (`barrier.getOperands()`) and the kind of `barrier->getParentOp()`. -/
structure BarrierOp where
  op : Nat
  operands : List Value
  parentOp : OpKind
deriving DecidableEq, Repr

/-- An arbitrary-precision integer `llvm::APInt`: a bit width and the unsigned
value of its bit pattern. -/
structure APInt where
  BitWidth : Nat
  val : Nat
  val_lt : val < 2 ^ BitWidth

/-- `mlir::LogicalResult`. -/
inductive LogicalResult where
  | success
  | failure
deriving DecidableEq, Repr

/-- A mutation of the instruction graph requested from the
`mlir::PatternRewriter`. -/
inductive RewriterAction where
  | eraseOp (op : Nat)
  | replaceOp (op : Nat) (newValues : List Value)
  | insertOp (kind : OpKind) (operands : List Value)
deriving DecidableEq, Repr

/-- The `mlir::PatternRewriter`, as the sequence of mutations requested from
it so far (oldest first). -/
structure PatternRewriter where
  actions : List RewriterAction
deriving DecidableEq, Repr

/-- The call `rewriter.eraseOp(op)`. -/
def PatternRewriter.eraseOp (rewriter : PatternRewriter) (op : Nat) : PatternRewriter :=
  ⟨rewriter.actions ++ [RewriterAction.eraseOp op]⟩

/-- What `Ops.h` consumes without defining it.

* `matchConstant v` is `matchPattern(v, m_Constant(&attr))`: `some a` when the
  pattern matches and binds an `IntegerAttr` of value `a`, `none` otherwise;
* `getEffectsBefore op stopAtBarrier` / `getEffectsAfter op stopAtBarrier` are
  the contents of the effect vector the collector fills (the vector is empty at
  the call, and the `bool` the collector returns is discarded by the caller);
* `mayAlias a b` is the two-effect overload of `mayAlias`. -/
structure Host where
  matchConstant : Value → Option APInt
  getEffectsBefore : Nat → Bool → List EffectInstance
  getEffectsAfter : Nat → Bool → List EffectInstance
  mayAlias : EffectInstance → EffectInstance → Bool

/-! ## `BarrierElim::matchAndRewrite` -/

/-- The inner loop `for (auto after : afterEffects) { ... }` for one `before`,
started with the current value of `conflict`; returns the value of `conflict`
when the loop is left.  A Read/Read pair executes `continue`; any other
may-aliasing pair sets `conflict = true` and executes `break`. -/
def conflictInner (mayAlias : EffectInstance → EffectInstance → Bool)
    (before : EffectInstance) : List EffectInstance → Bool → Bool
  | [], conflict => conflict
  | after :: rest, conflict =>
    if mayAlias before after then
      if before.isRead && after.isRead then
        conflictInner mayAlias before rest conflict
      else
        true
    else
      conflictInner mayAlias before rest conflict

/-- The outer loop `for (auto before : beforeEffects)`, started with the current
value of `conflict`.  The `break` of the inner loop does not leave this loop. -/
def conflictOuter (mayAlias : EffectInstance → EffectInstance → Bool)
    (afterEffects : List EffectInstance) : List EffectInstance → Bool → Bool
  | [], conflict => conflict
  | before :: rest, conflict =>
    conflictOuter mayAlias afterEffects rest
      (conflictInner mayAlias before afterEffects conflict)

/-- The block `bool conflict = false; for ... for ...`: the value of `conflict`
after the nested loops. -/
def conflictLoop (mayAlias : EffectInstance → EffectInstance → Bool)
    (beforeEffects afterEffects : List EffectInstance) : Bool :=
  conflictOuter mayAlias afterEffects beforeEffects false

/-- The test `llvm::all_of(barrier.getOperands(), matches an integer constant)`. -/
def allOperandsConstant (host : Host) (barrier : BarrierOp) : Bool :=
  barrier.operands.all (fun v => (host.matchConstant v).isSome)

/-- `BarrierElim<NotTopLevel>::matchAndRewrite(barrier, rewriter)`, with the
global option `BarrierOpt` and the template parameter `NotTopLevel` as
arguments.  Returns the `LogicalResult` and the rewriter after the call. -/
def matchAndRewrite (host : Host) (BarrierOpt NotTopLevel : Bool)
    (barrier : BarrierOp) (rewriter : PatternRewriter) :
    LogicalResult × PatternRewriter :=
  if !BarrierOpt then
    (LogicalResult.failure, rewriter)
  else if allOperandsConstant host barrier then
    (LogicalResult.success, rewriter.eraseOp barrier.op)
  else if NotTopLevel && barrier.parentOp.isParallel then
    (LogicalResult.failure, rewriter)
  else
    if !conflictLoop host.mayAlias
        (host.getEffectsBefore barrier.op true)
        (host.getEffectsAfter barrier.op false) then
      (LogicalResult.success, rewriter.eraseOp barrier.op)
    else if !conflictLoop host.mayAlias
        (host.getEffectsBefore barrier.op false)
        (host.getEffectsAfter barrier.op true) then
      (LogicalResult.success, rewriter.eraseOp barrier.op)
    else
      (LogicalResult.failure, rewriter)

/-! ## Declarative reading of the conflict test -/

/-- The test one iteration of the inner loop performs on a pair. -/
def pairConflicts (mayAlias : EffectInstance → EffectInstance → Bool)
    (before after : EffectInstance) : Bool :=
  mayAlias before after && !(before.isRead && after.isRead)

/-- A pair (before, after) is conflicting when it may alias and is not
Read/Read. -/
def ConflictingPair (mayAlias : EffectInstance → EffectInstance → Bool)
    (before after : EffectInstance) : Prop :=
  mayAlias before after = true ∧ ¬ (before.isRead = true ∧ after.isRead = true)

instance (mayAlias : EffectInstance → EffectInstance → Bool)
    (before after : EffectInstance) : Decidable (ConflictingPair mayAlias before after) := by
  unfold ConflictingPair; infer_instance

/-- A window (a Before list and an After list) contains a conflicting pair. -/
def WindowConflict (mayAlias : EffectInstance → EffectInstance → Bool)
    (beforeEffects afterEffects : List EffectInstance) : Prop :=
  ∃ before ∈ beforeEffects, ∃ after ∈ afterEffects, ConflictingPair mayAlias before after

instance (mayAlias : EffectInstance → EffectInstance → Bool)
    (beforeEffects afterEffects : List EffectInstance) :
    Decidable (WindowConflict mayAlias beforeEffects afterEffects) := by
  unfold WindowConflict; infer_instance

/-- Window policy A of a barrier: Before stopped at a barrier, After unbounded. -/
def windowAConflict (host : Host) (barrier : BarrierOp) : Prop :=
  WindowConflict host.mayAlias
    (host.getEffectsBefore barrier.op true) (host.getEffectsAfter barrier.op false)

/-- Window policy B of a barrier: Before unbounded, After stopped at a barrier. -/
def windowBConflict (host : Host) (barrier : BarrierOp) : Prop :=
  WindowConflict host.mayAlias
    (host.getEffectsBefore barrier.op false) (host.getEffectsAfter barrier.op true)

instance (host : Host) (barrier : BarrierOp) : Decidable (windowAConflict host barrier) := by
  unfold windowAConflict; infer_instance

instance (host : Host) (barrier : BarrierOp) : Decidable (windowBConflict host barrier) := by
  unfold windowBConflict; infer_instance

/-- The structural guard `NotTopLevel && isa<scf::ParallelOp, AffineParallelOp>(parent)`. -/
def guardBlocks (NotTopLevel : Bool) (barrier : BarrierOp) : Bool :=
  NotTopLevel && barrier.parentOp.isParallel

/-! ## `struct ValueOrInt` -/

/-- Reinterpretation of an integer as an `int64_t`: the value modulo `2^64` in
two's complement (the conversions `int64_t(x)` of an unsigned 64-bit `x`). -/
def toInt64 (n : Int) : Int :=
  (n + 2 ^ 63) % 2 ^ 64 - 2 ^ 63

/-- The range of `int64_t`. -/
def isInt64 (n : Int) : Prop :=
  -(2 ^ 63) ≤ n ∧ n < 2 ^ 63

instance (n : Int) : Decidable (isInt64 n) := by
  unfold isInt64; infer_instance

/-- The signed (two's complement) integer denoted by an `APInt`. -/
def APInt.signedValue (a : APInt) : Int :=
  if 2 * a.val < 2 ^ a.BitWidth then (a.val : Int) else (a.val : Int) - 2 ^ a.BitWidth

/-- LLVM `SignExtend64(X, B)`: `0` when `B == 0`, otherwise
`int64_t(X << (64 - B)) >> (64 - B)` (64-bit left shift, arithmetic right
shift). -/
def SignExtend64 (X : Nat) (B : Nat) : Int :=
  if B = 0 then 0
  else toInt64 (((X * 2 ^ (64 - B)) % 2 ^ 64 : Nat) : Int) / 2 ^ (64 - B)

/-- LLVM `APInt::getSExtValue()`, which returns an `int64_t`: for a single-word
integer (`BitWidth <= 64`) it is `SignExtend64(U.VAL, BitWidth)`, for a wider
one it is `int64_t(U.pVal[0])`, the low 64-bit word.  (A build of LLVM with
assertions enabled aborts in the second case when the value needs more than 64
significant bits; the embedding follows a build without assertions.) -/
def APInt.getSExtValue (a : APInt) : Int :=
  if a.BitWidth ≤ 64 then SignExtend64 a.val a.BitWidth
  else toInt64 ((a.val % 2 ^ 64 : Nat) : Int)

/-- The `struct ValueOrInt`: `isValue` is the tag (`true` = symbolic),
`v_val` the value handle (nullable), `i_val` the `int64_t` constant. -/
structure ValueOrInt where
  isValue : Bool
  v_val : Option Value
  i_val : Int
deriving DecidableEq, Repr

/-- The method `ValueOrInt::initValue(v)`; `self` is the object before the
call. -/
def ValueOrInt.initValue (host : Host) (self : ValueOrInt) (v : Option Value) : ValueOrInt :=
  match v with
  | some w =>
    match host.matchConstant w with
    | some iattr =>
      { self with i_val := iattr.getSExtValue, v_val := none, isValue := false }
    | none => { self with isValue := true, v_val := v }
  | none => { self with isValue := true, v_val := v }

/-- The constructor `ValueOrInt(mlir::Value v) { initValue(v); }`.  Before the
body runs `v_val` is default-constructed (null) while `isValue` and `i_val` are
uninitialised: their indeterminate contents are the arguments `isValue0` and
`i_val0`. -/
def ValueOrInt.ofValue (host : Host) (isValue0 : Bool) (i_val0 : Int)
    (v : Option Value) : ValueOrInt :=
  ValueOrInt.initValue host ⟨isValue0, none, i_val0⟩ v

/-- The constructor `ValueOrInt(size_t i) : isValue(false), v_val(), i_val(i)`;
`i` is a 64-bit unsigned integer, converted to `int64_t`. -/
def ValueOrInt.ofSize (i : Nat) : ValueOrInt :=
  ⟨false, none, toInt64 (i : Int)⟩

/-- The operator `>=` with an `int64_t` argument. -/
def ValueOrInt.ge (x : ValueOrInt) (v : Int) : Bool :=
  if x.isValue then false else decide (x.i_val ≥ v)

/-- The operator `>` with an `int64_t` argument. -/
def ValueOrInt.gt (x : ValueOrInt) (v : Int) : Bool :=
  if x.isValue then false else decide (x.i_val > v)

/-- The operator `==` with an `int64_t` argument. -/
def ValueOrInt.eq (x : ValueOrInt) (v : Int) : Bool :=
  if x.isValue then false else decide (x.i_val = v)

/-- The operator `<` with an `int64_t` argument. -/
def ValueOrInt.lt (x : ValueOrInt) (v : Int) : Bool :=
  if x.isValue then false else decide (x.i_val < v)

/-- The operator `<=` with an `int64_t` argument. -/
def ValueOrInt.le (x : ValueOrInt) (v : Int) : Bool :=
  if x.isValue then false else decide (x.i_val ≤ v)

/-- The operator `>=` with an `llvm::APInt` argument. -/
def ValueOrInt.geAP (x : ValueOrInt) (v : APInt) : Bool :=
  if x.isValue then false else decide (x.i_val ≥ v.getSExtValue)

/-- The operator `>` with an `llvm::APInt` argument. -/
def ValueOrInt.gtAP (x : ValueOrInt) (v : APInt) : Bool :=
  if x.isValue then false else decide (x.i_val > v.getSExtValue)

/-- The operator `==` with an `llvm::APInt` argument. -/
def ValueOrInt.eqAP (x : ValueOrInt) (v : APInt) : Bool :=
  if x.isValue then false else decide (x.i_val = v.getSExtValue)

/-- The operator `<` with an `llvm::APInt` argument. -/
def ValueOrInt.ltAP (x : ValueOrInt) (v : APInt) : Bool :=
  if x.isValue then false else decide (x.i_val < v.getSExtValue)

/-- The operator `<=` with an `llvm::APInt` argument. -/
def ValueOrInt.leAP (x : ValueOrInt) (v : APInt) : Bool :=
  if x.isValue then false else decide (x.i_val ≤ v.getSExtValue)

/-! ## Sample inputs -/

/-- The effect `Write(res=A)` on resource `r`. -/
def writeOn (r : Nat) : EffectInstance := ⟨Effect.Write, none, r⟩

/-- The effect `Read(res=A)` on resource `r`. -/
def readOn (r : Nat) : EffectInstance := ⟨Effect.Read, none, r⟩

/-- A may-alias relation that holds exactly between effects on one resource. -/
def sameResource (a b : EffectInstance) : Bool := decide (a.resource = b.resource)

/-- A 64-bit `APInt` holding `n` (taken modulo `2^64`). -/
def APInt.ofNat64 (n : Nat) : APInt := ⟨64, n % 2 ^ 64, Nat.mod_lt _ (by decide)⟩

/-- The 65-bit `APInt` of value `2^63`, one more than the largest `int64_t`. -/
def apInt65_pow63 : APInt := ⟨65, 2 ^ 63, by norm_num⟩

/-- The 65-bit `APInt` of value `-2^64` (bit pattern `2^64`, low word zero). -/
def apInt65_low0 : APInt := ⟨65, 2 ^ 64, by norm_num⟩

/-- The 128-bit `APInt` of value `-5`. -/
def apInt128_neg5 : APInt := ⟨128, 2 ^ 128 - 5, by norm_num⟩

/-- A matcher for which the values with identity below 100 are the integer
constants, value `k` being the constant `k`. -/
def sampleMatch (v : Value) : Option APInt :=
  if v.id < 100 then some (APInt.ofNat64 v.id) else none

/-- The region `[before..., Barrier, after...]` with the barrier as its only
barrier: both collectors see the same effects whatever `stopAtBarrier` is. -/
def regionHost (mayAlias : EffectInstance → EffectInstance → Bool)
    (before after : List EffectInstance) : Host :=
  ⟨sampleMatch, fun _ _ => before, fun _ _ => after, mayAlias⟩

/-- A host whose collectors depend on `stopAtBarrier`: the walk stopped at a
barrier sees `near`, the unbounded walk sees `near ++ far`. -/
def twoWindowHost (mayAlias : EffectInstance → EffectInstance → Bool)
    (beforeNear beforeFar afterNear afterFar : List EffectInstance) : Host :=
  ⟨sampleMatch,
   fun _ stopAtBarrier => if stopAtBarrier then beforeNear else beforeNear ++ beforeFar,
   fun _ stopAtBarrier => if stopAtBarrier then afterNear else afterNear ++ afterFar,
   mayAlias⟩

/-- A barrier synchronising on one non-constant value, nested in a non-parallel
operation. -/
def barrierDyn : BarrierOp := ⟨7, [⟨200⟩], OpKind.other 0⟩

/-- A barrier synchronising on one constant value, inside an `scf.parallel`. -/
def barrierConst : BarrierOp := ⟨7, [⟨0⟩], OpKind.scfParallel⟩

/-- A rewriter from which nothing has been requested yet. -/
def freshRewriter : PatternRewriter := ⟨[]⟩

/-- A barrier synchronising on one non-constant value, directly inside an
`scf.parallel`. -/
def barrierDynScf : BarrierOp := ⟨7, [⟨200⟩], OpKind.scfParallel⟩

/-- A barrier synchronising on one non-constant value, directly inside an
`affine.parallel`. -/
def barrierDynAffine : BarrierOp := ⟨7, [⟨200⟩], OpKind.affineParallel⟩

/-- A barrier without operands, directly inside an `scf.parallel`. -/
def barrierNoOperands : BarrierOp := ⟨7, [], OpKind.scfParallel⟩

/-- A matcher with two wide integer constants: value 1 is the 65-bit constant
`2^63` and value 2 the 128-bit constant `-5`; the other values are as in
`sampleMatch`. -/
def wideConstMatch (v : Value) : Option APInt :=
  if v.id = 1 then some apInt65_pow63
  else if v.id = 2 then some apInt128_neg5
  else sampleMatch v

/-- A host with the matcher `wideConstMatch` and no effects around. -/
def wideConstHost : Host :=
  ⟨wideConstMatch, fun _ _ => [], fun _ _ => [], sameResource⟩

/-! ## The conflict loops -/

theorem pairConflicts_iff (mayAlias : EffectInstance → EffectInstance → Bool)
    (before after : EffectInstance) :
    pairConflicts mayAlias before after = true ↔ ConflictingPair mayAlias before after := by
  unfold pairConflicts ConflictingPair
  cases mayAlias before after <;> cases before.isRead <;> cases after.isRead <;> simp

theorem conflictInner_eq (mayAlias : EffectInstance → EffectInstance → Bool)
    (before : EffectInstance) (afterEffects : List EffectInstance) (conflict : Bool) :
    conflictInner mayAlias before afterEffects conflict
      = (conflict || afterEffects.any (pairConflicts mayAlias before)) := by
  induction afterEffects with
  | nil => simp [conflictInner]
  | cons after rest ih =>
    unfold conflictInner
    rw [ih, List.any_cons]
    unfold pairConflicts
    cases mayAlias before after <;> cases before.isRead <;> cases after.isRead <;>
      cases conflict <;> simp

theorem conflictOuter_eq (mayAlias : EffectInstance → EffectInstance → Bool)
    (afterEffects beforeEffects : List EffectInstance) (conflict : Bool) :
    conflictOuter mayAlias afterEffects beforeEffects conflict
      = (conflict ||
          beforeEffects.any (fun before => afterEffects.any (pairConflicts mayAlias before))) := by
  induction beforeEffects generalizing conflict with
  | nil => simp [conflictOuter]
  | cons before rest ih =>
    unfold conflictOuter
    rw [ih, conflictInner_eq, List.any_cons, Bool.or_assoc]

theorem conflictLoop_eq_true_iff (mayAlias : EffectInstance → EffectInstance → Bool)
    (beforeEffects afterEffects : List EffectInstance) :
    conflictLoop mayAlias beforeEffects afterEffects = true
      ↔ WindowConflict mayAlias beforeEffects afterEffects := by
  unfold conflictLoop WindowConflict
  rw [conflictOuter_eq]
  simp only [Bool.false_or, List.any_eq_true, pairConflicts_iff]

theorem conflictLoop_eq_false_iff (mayAlias : EffectInstance → EffectInstance → Bool)
    (beforeEffects afterEffects : List EffectInstance) :
    conflictLoop mayAlias beforeEffects afterEffects = false
      ↔ ¬ WindowConflict mayAlias beforeEffects afterEffects := by
  rw [← conflictLoop_eq_true_iff]
  cases conflictLoop mayAlias beforeEffects afterEffects <;> simp

theorem allOperandsConstant_iff (host : Host) (barrier : BarrierOp) :
    allOperandsConstant host barrier = true
      ↔ ∀ v ∈ barrier.operands, ∃ a, host.matchConstant v = some a := by
  unfold allOperandsConstant
  simp [List.all_eq_true, Option.isSome_iff_exists]

/-- The outcome of `matchAndRewrite` when the rule is enabled and the barrier has
an operand that is not a constant. -/
theorem matchAndRewrite_of_nonconstant (host : Host) (NotTopLevel : Bool)
    (barrier : BarrierOp) (rewriter : PatternRewriter)
    (hop : allOperandsConstant host barrier = false) :
    matchAndRewrite host true NotTopLevel barrier rewriter
      = if guardBlocks NotTopLevel barrier = false
            ∧ (¬ windowAConflict host barrier ∨ ¬ windowBConflict host barrier) then
          (LogicalResult.success, rewriter.eraseOp barrier.op)
        else (LogicalResult.failure, rewriter) := by
  unfold matchAndRewrite guardBlocks windowAConflict windowBConflict
  simp only [← conflictLoop_eq_false_iff, hop]
  cases NotTopLevel && barrier.parentOp.isParallel <;>
    cases conflictLoop host.mayAlias (host.getEffectsBefore barrier.op true)
      (host.getEffectsAfter barrier.op false) <;>
    cases conflictLoop host.mayAlias (host.getEffectsBefore barrier.op false)
      (host.getEffectsAfter barrier.op true) <;> simp

/-- The outcome of `matchAndRewrite` when the rule is enabled and every operand
of the barrier is a constant. -/
theorem matchAndRewrite_of_constant (host : Host) (NotTopLevel : Bool)
    (barrier : BarrierOp) (rewriter : PatternRewriter)
    (hop : allOperandsConstant host barrier = true) :
    matchAndRewrite host true NotTopLevel barrier rewriter
      = (LogicalResult.success, rewriter.eraseOp barrier.op) := by
  unfold matchAndRewrite
  simp [hop]

/-! ## Claims about `BarrierElim::matchAndRewrite` -/

/-- C1 (as stated, refuted): in the region `[Write(res=1), Barrier, Read(res=1)]`,
default mode, a barrier whose only operand is a constant is Removed although
both window policies contain a conflicting Write/Read pair. -/
theorem C1_removed_despite_conflicts :
    (matchAndRewrite (regionHost sameResource [writeOn 1] [readOn 1]) true false
        barrierConst freshRewriter).1 = LogicalResult.success
      ∧ windowAConflict (regionHost sameResource [writeOn 1] [readOn 1]) barrierConst
      ∧ windowBConflict (regionHost sameResource [writeOn 1] [readOn 1]) barrierConst := by
  decide

/-- C1 (amended): soundness of removal for a barrier that has an operand which is
not an integer constant.  Whenever `matchAndRewrite` returns success for such a
barrier, window policy A or window policy B contains no pair (before, after)
that may alias and is not Read/Read. -/
theorem C1_removal_sound (host : Host) (BarrierOpt NotTopLevel : Bool)
    (barrier : BarrierOp) (rewriter : PatternRewriter)
    (hop : ∃ v ∈ barrier.operands, host.matchConstant v = none)
    (hs : (matchAndRewrite host BarrierOpt NotTopLevel barrier rewriter).1
            = LogicalResult.success) :
    ¬ windowAConflict host barrier ∨ ¬ windowBConflict host barrier := by
  have hc : allOperandsConstant host barrier = false := by
    cases h : allOperandsConstant host barrier with
    | false => rfl
    | true =>
      obtain ⟨v, hv, hn⟩ := hop
      obtain ⟨a, ha⟩ := (allOperandsConstant_iff host barrier).1 h v hv
      rw [hn] at ha
      cases ha
  cases BarrierOpt with
  | false => simp [matchAndRewrite] at hs
  | true =>
    rw [matchAndRewrite_of_nonconstant host NotTopLevel barrier rewriter hc] at hs
    by_cases h : guardBlocks NotTopLevel barrier = false
        ∧ (¬ windowAConflict host barrier ∨ ¬ windowBConflict host barrier)
    · exact h.2
    · rw [if_neg h] at hs
      cases hs

/-- Instance of the amended C1: the region `[Write 1, Barrier, Read 2]`, default
mode, barrier with the non-constant operand 200. -/
theorem C1_removal_sound_witness :
    (∃ v ∈ barrierDyn.operands,
        (regionHost sameResource [writeOn 1] [readOn 2]).matchConstant v = none)
      ∧ (matchAndRewrite (regionHost sameResource [writeOn 1] [readOn 2]) true false
          barrierDyn freshRewriter).1 = LogicalResult.success
      ∧ (¬ windowAConflict (regionHost sameResource [writeOn 1] [readOn 2]) barrierDyn
          ∨ ¬ windowBConflict (regionHost sameResource [writeOn 1] [readOn 2]) barrierDyn) :=
  ⟨⟨⟨200⟩, List.mem_cons_self _ _, rfl⟩, by decide,
    C1_removal_sound (regionHost sameResource [writeOn 1] [readOn 2]) true false
      barrierDyn freshRewriter ⟨⟨200⟩, List.mem_cons_self _ _, rfl⟩ (by decide)⟩

/-- C2: global disable.  With `BarrierOpt` false, `matchAndRewrite` returns
failure and leaves the rewriter untouched (no `eraseOp`), for every host (every
constant matcher, effect collectors and alias relation), every barrier (any
operand list, any parent) and both values of `NotTopLevel`. -/
theorem C2_disabled_kept (host : Host) (NotTopLevel : Bool)
    (barrier : BarrierOp) (rewriter : PatternRewriter) :
    matchAndRewrite host false NotTopLevel barrier rewriter
      = (LogicalResult.failure, rewriter) := by
  simp [matchAndRewrite]

/-- C3: trivial-constant removal.  With the flag on, a barrier each of whose
operands matches an integer constant is Removed: the result is success and the
only request to the rewriter is `eraseOp(barrier)`, whatever the effect
collectors and `mayAlias` return, whatever `NotTopLevel` and the parent are. -/
theorem C3_constant_operands_removed (host : Host) (NotTopLevel : Bool)
    (barrier : BarrierOp) (rewriter : PatternRewriter)
    (hop : ∀ v ∈ barrier.operands, ∃ a, host.matchConstant v = some a) :
    matchAndRewrite host true NotTopLevel barrier rewriter
      = (LogicalResult.success, rewriter.eraseOp barrier.op) :=
  matchAndRewrite_of_constant host NotTopLevel barrier rewriter
    ((allOperandsConstant_iff host barrier).2 hop)

/-- Instance of C3: a barrier on the constant 0 directly inside an `scf.parallel`,
`NotTopLevel` mode, between two writes that may alias. -/
theorem C3_constant_operands_removed_witness :
    (∀ v ∈ barrierConst.operands,
        ∃ a, (regionHost (fun _ _ => true) [writeOn 1] [writeOn 1]).matchConstant v = some a)
      ∧ guardBlocks true barrierConst = true
      ∧ matchAndRewrite (regionHost (fun _ _ => true) [writeOn 1] [writeOn 1]) true true
          barrierConst freshRewriter
        = (LogicalResult.success, ⟨[RewriterAction.eraseOp 7]⟩) :=
  ⟨by simp [barrierConst, regionHost, sampleMatch], by decide,
    C3_constant_operands_removed (regionHost (fun _ _ => true) [writeOn 1] [writeOn 1]) true
      barrierConst freshRewriter (by simp [barrierConst, regionHost, sampleMatch])⟩

/-- C4: either window suffices.  With the flag on and the structural guard not
blocking, if window A (Before stopped at a barrier, After unbounded) has no
conflicting pair, or window B (Before unbounded, After stopped at a barrier)
has none, then `matchAndRewrite` returns success and erases the barrier. -/
theorem C4_either_window_suffices (host : Host) (NotTopLevel : Bool)
    (barrier : BarrierOp) (rewriter : PatternRewriter)
    (hg : guardBlocks NotTopLevel barrier = false)
    (hw : ¬ windowAConflict host barrier ∨ ¬ windowBConflict host barrier) :
    matchAndRewrite host true NotTopLevel barrier rewriter
      = (LogicalResult.success, rewriter.eraseOp barrier.op) := by
  cases hc : allOperandsConstant host barrier with
  | true => exact matchAndRewrite_of_constant host NotTopLevel barrier rewriter hc
  | false =>
    rw [matchAndRewrite_of_nonconstant host NotTopLevel barrier rewriter hc]
    exact if_pos ⟨hg, hw⟩

/-- Instances of C4: a barrier conflict-free under A but conflicting under B
(region `[Write 1, Barrier, *, Read 1]`), one conflict-free under B but
conflicting under A (region `[Write 1, *, Barrier, Read 1]`), and the region
`[Write 1, *, Read 2]` with resources 1 and 2 not aliasing; `*` is the barrier
under test. -/
theorem C4_either_window_suffices_witness :
    (¬ windowAConflict (twoWindowHost sameResource [] [writeOn 1] [readOn 1] []) barrierDyn
      ∧ windowBConflict (twoWindowHost sameResource [] [writeOn 1] [readOn 1] []) barrierDyn
      ∧ matchAndRewrite (twoWindowHost sameResource [] [writeOn 1] [readOn 1] []) true false
          barrierDyn freshRewriter = (LogicalResult.success, ⟨[RewriterAction.eraseOp 7]⟩))
    ∧ (windowAConflict (twoWindowHost sameResource [writeOn 1] [] [] [readOn 1]) barrierDyn
      ∧ ¬ windowBConflict (twoWindowHost sameResource [writeOn 1] [] [] [readOn 1]) barrierDyn
      ∧ matchAndRewrite (twoWindowHost sameResource [writeOn 1] [] [] [readOn 1]) true false
          barrierDyn freshRewriter = (LogicalResult.success, ⟨[RewriterAction.eraseOp 7]⟩))
    ∧ (sameResource (writeOn 1) (readOn 2) = false
      ∧ matchAndRewrite (regionHost sameResource [writeOn 1] [readOn 2]) true false
          barrierDyn freshRewriter = (LogicalResult.success, ⟨[RewriterAction.eraseOp 7]⟩)) :=
  ⟨⟨by decide, by decide,
      C4_either_window_suffices (twoWindowHost sameResource [] [writeOn 1] [readOn 1] [])
        false barrierDyn freshRewriter (by decide) (Or.inl (by decide))⟩,
   ⟨by decide, by decide,
      C4_either_window_suffices (twoWindowHost sameResource [writeOn 1] [] [] [readOn 1])
        false barrierDyn freshRewriter (by decide) (Or.inr (by decide))⟩,
   ⟨by decide,
      C4_either_window_suffices (regionHost sameResource [writeOn 1] [readOn 2])
        false barrierDyn freshRewriter (by decide) (Or.inl (by decide))⟩⟩

/-- C5: Read/Read exemption.  An iteration of the inner loop on a pair whose two
effects are Reads leaves `conflict` as it is and goes on, whatever `mayAlias`
answers; and with the flag on and the guard not blocking, if every effect of
the Before list and of the After list of window A, or of window B, is a Read,
`matchAndRewrite` returns success and erases the barrier. -/
theorem C5_read_read_exempt (host : Host) (NotTopLevel : Bool)
    (barrier : BarrierOp) (rewriter : PatternRewriter)
    (hg : guardBlocks NotTopLevel barrier = false)
    (hr : ((∀ e ∈ host.getEffectsBefore barrier.op true, e.isRead = true)
            ∧ (∀ e ∈ host.getEffectsAfter barrier.op false, e.isRead = true))
          ∨ ((∀ e ∈ host.getEffectsBefore barrier.op false, e.isRead = true)
            ∧ (∀ e ∈ host.getEffectsAfter barrier.op true, e.isRead = true))) :
    (∀ (before after : EffectInstance) (rest : List EffectInstance) (conflict : Bool),
        before.isRead = true → after.isRead = true →
        conflictInner host.mayAlias before (after :: rest) conflict
          = conflictInner host.mayAlias before rest conflict)
      ∧ matchAndRewrite host true NotTopLevel barrier rewriter
          = (LogicalResult.success, rewriter.eraseOp barrier.op) := by
  refine ⟨?_, ?_⟩
  · intro before after rest conflict hb ha
    rw [conflictInner]
    simp [hb, ha]
  · have hw : ¬ windowAConflict host barrier ∨ ¬ windowBConflict host barrier := by
      rcases hr with ⟨hb, ha⟩ | ⟨hb, ha⟩
      · left
        rintro ⟨b, hbm, a, ham, -, hn⟩
        exact hn ⟨hb b hbm, ha a ham⟩
      · right
        rintro ⟨b, hbm, a, ham, -, hn⟩
        exact hn ⟨hb b hbm, ha a ham⟩
    cases hc : allOperandsConstant host barrier with
    | true => exact matchAndRewrite_of_constant host NotTopLevel barrier rewriter hc
    | false =>
      rw [matchAndRewrite_of_nonconstant host NotTopLevel barrier rewriter hc]
      exact if_pos ⟨hg, hw⟩

/-- Instance of C5: reads before and after the barrier, with a `mayAlias` that
always answers true. -/
theorem C5_read_read_exempt_witness :
    (fun (_ _ : EffectInstance) => true) (readOn 1) (readOn 1) = true
      ∧ conflictLoop (fun _ _ => true) [readOn 1, readOn 2] [readOn 1, readOn 3] = false
      ∧ matchAndRewrite (regionHost (fun _ _ => true) [readOn 1, readOn 2] [readOn 1, readOn 3])
          true false barrierDyn freshRewriter
        = (LogicalResult.success, ⟨[RewriterAction.eraseOp 7]⟩) :=
  ⟨rfl, by decide,
    (C5_read_read_exempt (regionHost (fun _ _ => true) [readOn 1, readOn 2] [readOn 1, readOn 3])
      false barrierDyn freshRewriter (by decide) (Or.inl ⟨by decide, by decide⟩)).2⟩

/-- C6: deletion iff success.  Every run of `matchAndRewrite` ends in one of two
ways: the result is success and the rewriter has received exactly one more
request, `eraseOp(barrier)`; or the result is failure and the rewriter has
received no request at all. -/
theorem C6_erase_iff_success (host : Host) (BarrierOpt NotTopLevel : Bool)
    (barrier : BarrierOp) (rewriter : PatternRewriter) :
    matchAndRewrite host BarrierOpt NotTopLevel barrier rewriter
        = (LogicalResult.success,
            ⟨rewriter.actions ++ [RewriterAction.eraseOp barrier.op]⟩)
      ∨ matchAndRewrite host BarrierOpt NotTopLevel barrier rewriter
        = (LogicalResult.failure, rewriter) := by
  unfold matchAndRewrite PatternRewriter.eraseOp
  split_ifs <;> simp

/-! ## `APInt::getSExtValue` -/

/-- The `int64_t` reinterpretation of `n` is the integer of the `int64_t` range
congruent to `n` modulo `2^64`. -/
theorem toInt64_eq_of_congr (n m : Int) (hm : isInt64 m) (k : Int)
    (hk : n = m + 2 ^ 64 * k) : toInt64 n = m := by
  obtain ⟨h1, h2⟩ := hm
  unfold toInt64
  have e : n + 2 ^ 63 = (m + 2 ^ 63) + 2 ^ 64 * k := by rw [hk]; ring
  rw [e, Int.add_mul_emod_self_left, Int.emod_eq_of_lt (by omega) (by omega)]
  ring

theorem toInt64_of_isInt64 (m : Int) (hm : isInt64 m) : toInt64 m = m :=
  toInt64_eq_of_congr m m hm 0 (by ring)

theorem isInt64_toInt64 (n : Int) : isInt64 (toInt64 n) := by
  unfold isInt64 toInt64
  have h1 := Int.emod_nonneg (n + 2 ^ 63) (show (2 ^ 64 : Int) ≠ 0 by norm_num)
  have h2 := Int.emod_lt_of_pos (n + 2 ^ 63) (show (0 : Int) < 2 ^ 64 by norm_num)
  constructor <;> omega

/-- On a well-formed single-word input, `SignExtend64` returns the signed value
of the `B`-bit pattern `X`. -/
theorem SignExtend64_eq (X B : Nat) (hB : B ≤ 64) (hX : X < 2 ^ B) :
    SignExtend64 X B = if 2 * X < 2 ^ B then (X : Int) else (X : Int) - 2 ^ B := by
  unfold SignExtend64
  by_cases h0 : B = 0
  · subst h0
    have : X = 0 := by simpa using hX
    subst this
    simp
  · rw [if_neg h0]
    have hpow : 2 ^ B * 2 ^ (64 - B) = 2 ^ 64 := by
      rw [← pow_add]; congr 1; omega
    have hs : 0 < 2 ^ (64 - B) := Nat.two_pow_pos _
    have hY : X * 2 ^ (64 - B) < 2 ^ 64 := by
      rw [← hpow]; exact Nat.mul_lt_mul_of_pos_right hX hs
    rw [Nat.mod_eq_of_lt hY]
    have hpowZ : (2 : Int) ^ B * 2 ^ (64 - B) = 2 ^ 64 := by exact_mod_cast hpow
    have hsZ : (2 : Int) ^ (64 - B) ≠ 0 := by positivity
    by_cases hlt : 2 * X < 2 ^ B
    · rw [if_pos hlt]
      have h2 : 2 * (X * 2 ^ (64 - B)) < 2 ^ 64 := by
        rw [← hpow, ← Nat.mul_assoc]; exact Nat.mul_lt_mul_of_pos_right hlt hs
      have hr : isInt64 ((X * 2 ^ (64 - B) : Nat) : Int) := by
        unfold isInt64
        constructor <;> omega
      rw [toInt64_of_isInt64 _ hr]
      push_cast
      exact Int.mul_ediv_cancel _ hsZ
    · rw [if_neg hlt]
      have h2 : 2 ^ 64 ≤ 2 * (X * 2 ^ (64 - B)) := by
        rw [← hpow, ← Nat.mul_assoc]; exact Nat.mul_le_mul_right _ (not_lt.1 hlt)
      have hr : isInt64 (((X * 2 ^ (64 - B) : Nat) : Int) - 2 ^ 64) := by
        unfold isInt64
        constructor <;> omega
      rw [toInt64_eq_of_congr _ _ hr 1 (by ring)]
      have e : ((X * 2 ^ (64 - B) : Nat) : Int) - 2 ^ 64
          = ((X : Int) - 2 ^ B) * 2 ^ (64 - B) := by
        rw [sub_mul, hpowZ, Nat.cast_mul, Nat.cast_pow, Nat.cast_ofNat]
      rw [e]
      exact Int.mul_ediv_cancel _ hsZ

/-- An `APInt` of at most 64 bits denotes an integer of the `int64_t` range. -/
theorem APInt.isInt64_signedValue_of_le (a : APInt) (hw : a.BitWidth ≤ 64) :
    isInt64 a.signedValue := by
  have hlt := a.val_lt
  have hle : 2 ^ a.BitWidth ≤ 2 ^ 64 := Nat.pow_le_pow_right (by norm_num) hw
  have hpos : 0 < 2 ^ a.BitWidth := Nat.two_pow_pos _
  have hcast : ((2 ^ a.BitWidth : Nat) : Int) = (2 : Int) ^ a.BitWidth := by push_cast; rfl
  unfold APInt.signedValue isInt64
  split_ifs with h <;> constructor <;> omega

/-- When the integer denoted by an `APInt` (of any width) fits in `int64_t`,
`getSExtValue` returns it. -/
theorem APInt.getSExtValue_eq_signedValue (a : APInt) (h : isInt64 a.signedValue) :
    a.getSExtValue = a.signedValue := by
  unfold APInt.getSExtValue
  by_cases hw : a.BitWidth ≤ 64
  · rw [if_pos hw, SignExtend64_eq a.val a.BitWidth hw a.val_lt]
    rfl
  · rw [if_neg hw]
    have hdiv : (2 : Int) ^ a.BitWidth = 2 ^ 64 * 2 ^ (a.BitWidth - 64) := by
      rw [← pow_add]; congr 1; omega
    have hcast : ((a.val % 2 ^ 64 : Nat) : Int) = (a.val : Int) % 2 ^ 64 := by norm_cast
    have hmod : ((a.val % 2 ^ 64 : Nat) : Int)
        = (a.val : Int) + 2 ^ 64 * (-((a.val : Int) / 2 ^ 64)) := by
      rw [hcast, Int.emod_def]; ring
    unfold APInt.signedValue at h ⊢
    split_ifs at h ⊢ with hs
    · exact toInt64_eq_of_congr _ _ h _ hmod
    · refine toInt64_eq_of_congr _ _ h
        (2 ^ (a.BitWidth - 64) - (a.val : Int) / 2 ^ 64) ?_
      rw [hmod, hdiv]; ring

/-- The result of `getSExtValue` is always an `int64_t`. -/
theorem APInt.isInt64_getSExtValue (a : APInt) : isInt64 a.getSExtValue := by
  by_cases hw : a.BitWidth ≤ 64
  · rw [a.getSExtValue_eq_signedValue (a.isInt64_signedValue_of_le hw)]
    exact a.isInt64_signedValue_of_le hw
  · unfold APInt.getSExtValue
    rw [if_neg hw]
    exact isInt64_toInt64 _

/-! ## The constructor `ValueOrInt(mlir::Value)` -/

theorem ValueOrInt.ofValue_null (host : Host) (isValue0 : Bool) (i_val0 : Int) :
    ValueOrInt.ofValue host isValue0 i_val0 none = ⟨true, none, i_val0⟩ := rfl

theorem ValueOrInt.ofValue_of_nonconstant (host : Host) (isValue0 : Bool) (i_val0 : Int)
    (w : Value) (hm : host.matchConstant w = none) :
    ValueOrInt.ofValue host isValue0 i_val0 (some w) = ⟨true, some w, i_val0⟩ := by
  simp [ValueOrInt.ofValue, ValueOrInt.initValue, hm]

theorem ValueOrInt.ofValue_of_constant (host : Host) (isValue0 : Bool) (i_val0 : Int)
    (w : Value) (a : APInt) (hm : host.matchConstant w = some a) :
    ValueOrInt.ofValue host isValue0 i_val0 (some w) = ⟨false, none, a.getSExtValue⟩ := by
  simp [ValueOrInt.ofValue, ValueOrInt.initValue, hm]

/-! ## Claims about `ValueOrInt` -/

/-- C7: comparator conservatism.  For every `ValueOrInt` tagged symbolic
(`isValue = true`), whatever `i_val` and `v_val` hold, each of the operators
`>=`, `>`, `==`, `<`, `<=` returns false for every integer literal `v` and for
every `APInt` `a`. -/
theorem C7_symbolic_compares_false (x : ValueOrInt) (hx : x.isValue = true)
    (v : Int) (a : APInt) :
    x.ge v = false ∧ x.gt v = false ∧ x.eq v = false ∧ x.lt v = false ∧ x.le v = false
      ∧ x.geAP a = false ∧ x.gtAP a = false ∧ x.eqAP a = false ∧ x.ltAP a = false
      ∧ x.leAP a = false := by
  simp [ValueOrInt.ge, ValueOrInt.gt, ValueOrInt.eq, ValueOrInt.lt, ValueOrInt.le,
    ValueOrInt.geAP, ValueOrInt.gtAP, ValueOrInt.eqAP, ValueOrInt.ltAP, ValueOrInt.leAP, hx]

/-- Instance of C7: the value built from the non-constant handle 200, with 5 as
the uninitialised content of `i_val`, compared with 5 and with the 64-bit
`APInt` 5. -/
theorem C7_symbolic_compares_false_witness :
    (ValueOrInt.ofValue (regionHost sameResource [] []) false 5 (some ⟨200⟩)).isValue = true
      ∧ (ValueOrInt.ofValue (regionHost sameResource [] []) false 5 (some ⟨200⟩)).i_val = 5
      ∧ (ValueOrInt.ofValue (regionHost sameResource [] []) false 5 (some ⟨200⟩)).lt 5 = false
      ∧ (ValueOrInt.ofValue (regionHost sameResource [] []) false 5 (some ⟨200⟩)).ge 5 = false
      ∧ (ValueOrInt.ofValue (regionHost sameResource [] []) false 5 (some ⟨200⟩)).eq 5 = false
      ∧ (ValueOrInt.ofValue (regionHost sameResource [] []) false 5 (some ⟨200⟩)).eqAP
          (APInt.ofNat64 5) = false :=
  have h := C7_symbolic_compares_false
    (ValueOrInt.ofValue (regionHost sameResource [] []) false 5 (some ⟨200⟩)) rfl 5
    (APInt.ofNat64 5)
  ⟨rfl, rfl, h.2.2.2.1, h.1, h.2.2.1, h.2.2.2.2.2.2.2.1⟩

/-- C8: a resolved `ValueOrInt` holding the integer `k` (any handle in `v_val`)
compares exactly with an integer literal `v`: `>=`, `>`, `==`, `<`, `<=` return
`k ≥ v`, `k > v`, `k = v`, `k < v`, `k ≤ v`.  In particular `== k` is true and
`== (k+1)` is false, also when `k+1` is wrapped to 64 bits.  The statement
holds for all integers, hence for all `int64_t` values of `k` and `v`. -/
theorem C8_resolved_literal_exact (h : Option Value) (k v : Int) :
    (ValueOrInt.mk false h k).ge v = decide (k ≥ v)
      ∧ (ValueOrInt.mk false h k).gt v = decide (k > v)
      ∧ (ValueOrInt.mk false h k).eq v = decide (k = v)
      ∧ (ValueOrInt.mk false h k).lt v = decide (k < v)
      ∧ (ValueOrInt.mk false h k).le v = decide (k ≤ v)
      ∧ (ValueOrInt.mk false h k).eq k = true
      ∧ (ValueOrInt.mk false h k).eq (k + 1) = false
      ∧ (ValueOrInt.mk false h k).eq (toInt64 (k + 1)) = false := by
  refine ⟨rfl, rfl, rfl, rfl, rfl, ?_, ?_, ?_⟩
  · simp [ValueOrInt.eq]
  · simp [ValueOrInt.eq]
  · have hne : k ≠ toInt64 (k + 1) := by
      unfold toInt64
      omega
    simp [ValueOrInt.eq, hne]

/-- C9 (as stated, refuted): the resolved value 0 against 65-bit `APInt`s outside
the `int64_t` range.  Against `2^63`: `>=` returns true and `<` returns false,
although `0 < 2^63`.  Against `-2^64`: `==` returns true although
`0 ≠ -2^64`. -/
theorem C9_wide_APInt_miscompared :
    apInt65_pow63.signedValue = 2 ^ 63
      ∧ (ValueOrInt.mk false none 0).geAP apInt65_pow63 = true
      ∧ decide ((0 : Int) ≥ apInt65_pow63.signedValue) = false
      ∧ (ValueOrInt.mk false none 0).ltAP apInt65_pow63 = false
      ∧ decide ((0 : Int) < apInt65_pow63.signedValue) = true
      ∧ apInt65_low0.signedValue = -(2 ^ 64)
      ∧ (ValueOrInt.mk false none 0).eqAP apInt65_low0 = true
      ∧ decide ((0 : Int) = apInt65_low0.signedValue) = false := by
  decide

/-- C9 (amended): a resolved `ValueOrInt` holding `k` compares correctly with
every `APInt` `a`, of any bit width, whose signed value lies in the `int64_t`
range: each of `>=`, `>`, `==`, `<`, `<=` returns the relation between `k` and
the signed integer denoted by `a`. -/
theorem C9_resolved_APInt_in_range (h : Option Value) (k : Int) (a : APInt)
    (ha : isInt64 a.signedValue) :
    (ValueOrInt.mk false h k).geAP a = decide (k ≥ a.signedValue)
      ∧ (ValueOrInt.mk false h k).gtAP a = decide (k > a.signedValue)
      ∧ (ValueOrInt.mk false h k).eqAP a = decide (k = a.signedValue)
      ∧ (ValueOrInt.mk false h k).ltAP a = decide (k < a.signedValue)
      ∧ (ValueOrInt.mk false h k).leAP a = decide (k ≤ a.signedValue) := by
  simp [ValueOrInt.geAP, ValueOrInt.gtAP, ValueOrInt.eqAP, ValueOrInt.ltAP, ValueOrInt.leAP,
    a.getSExtValue_eq_signedValue ha]

/-- Instance of the amended C9 at width 128: the resolved value `-5` against the
128-bit `APInt` of value `-5`. -/
theorem C9_resolved_APInt_in_range_witness :
    isInt64 apInt128_neg5.signedValue
      ∧ apInt128_neg5.signedValue = -5
      ∧ (ValueOrInt.mk false none (-5)).eqAP apInt128_neg5 = true
      ∧ (ValueOrInt.mk false none (-5)).ltAP apInt128_neg5 = false :=
  have hv : apInt128_neg5.signedValue = -5 := by
    norm_num [apInt128_neg5, APInt.signedValue]
  have hr : isInt64 apInt128_neg5.signedValue := by
    rw [hv]; decide
  have h := C9_resolved_APInt_in_range none (-5) apInt128_neg5 hr
  ⟨hr, hv, by rw [h.2.2.1, hv]; decide, by rw [h.2.2.2.1, hv]; decide⟩

/-- C10 (as stated, refuted): the handle 1 matches the integer-constant pattern
with the 65-bit constant `2^63`; `ValueOrInt(v)` is tagged resolved with a null
`v_val`, but `i_val` is `-2^63`, not the value `2^63` of the constant. -/
theorem C10_wide_constant_truncated :
    (wideConstHost.matchConstant ⟨1⟩).map APInt.signedValue = some (2 ^ 63)
      ∧ (wideConstHost.matchConstant ⟨1⟩).map APInt.BitWidth = some 65
      ∧ ValueOrInt.ofValue wideConstHost true 0 (some ⟨1⟩) = ⟨false, none, -(2 ^ 63)⟩
      ∧ (ValueOrInt.ofValue wideConstHost true 0 (some ⟨1⟩)).i_val ≠ 2 ^ 63 := by
  decide

/-- C10 (amended): construction by constant folding.  `ValueOrInt(v)` is tagged
resolved exactly when `v` is non-null and matches the integer-constant pattern.
In that case `v_val` is null, and when the signed value of the constant lies in
the `int64_t` range, as it does for every constant of at most 64 bits, `i_val`
is that signed value.  In every other case (non-constant or null handle) the
result is tagged symbolic, `v_val` is the handle `v` and `i_val` keeps its
uninitialised content. -/
theorem C10_construction_in_range (host : Host) (isValue0 : Bool) (i_val0 : Int)
    (v : Option Value) :
    ((ValueOrInt.ofValue host isValue0 i_val0 v).isValue = false
        ↔ ∃ w a, v = some w ∧ host.matchConstant w = some a)
      ∧ (∀ w a, v = some w → host.matchConstant w = some a →
          (ValueOrInt.ofValue host isValue0 i_val0 v).isValue = false
            ∧ (ValueOrInt.ofValue host isValue0 i_val0 v).v_val = none
            ∧ (isInt64 a.signedValue →
                ValueOrInt.ofValue host isValue0 i_val0 v = ⟨false, none, a.signedValue⟩)
            ∧ (a.BitWidth ≤ 64 →
                ValueOrInt.ofValue host isValue0 i_val0 v = ⟨false, none, a.signedValue⟩))
      ∧ ((¬ ∃ w a, v = some w ∧ host.matchConstant w = some a) →
          ValueOrInt.ofValue host isValue0 i_val0 v = ⟨true, v, i_val0⟩) := by
  cases v with
  | none => simp [ValueOrInt.ofValue_null]
  | some w =>
    cases hm : host.matchConstant w with
    | none =>
      have he := ValueOrInt.ofValue_of_nonconstant host isValue0 i_val0 w hm
      have hno : ¬ ∃ w2 a, some w = some w2 ∧ host.matchConstant w2 = some a := by
        rintro ⟨w2, a, hw, ha⟩
        cases hw
        rw [hm] at ha
        cases ha
      refine ⟨⟨fun h => ?_, fun h => absurd h hno⟩, ?_, fun _ => he⟩
      · rw [he] at h
        cases h
      intro w2 a hw ha
      exact absurd ⟨w2, a, hw, ha⟩ hno
    | some c =>
      have he := ValueOrInt.ofValue_of_constant host isValue0 i_val0 w c hm
      have hin : isInt64 c.signedValue →
          ValueOrInt.ofValue host isValue0 i_val0 (some w) = ⟨false, none, c.signedValue⟩ := by
        intro hr
        rw [he, c.getSExtValue_eq_signedValue hr]
      refine ⟨by simp [he, hm], ?_, by simp [hm]⟩
      intro w2 a hw ha
      cases hw
      rw [hm] at ha
      cases ha
      refine ⟨?_, ?_, hin, fun hle => hin (c.isInt64_signedValue_of_le hle)⟩
      · rw [he]
      · rw [he]

/-- Instances of the amended C10: the handle 2, matched with the 128-bit constant
`-5`, gives the resolved value `-5`; the handle 3, matched with the 64-bit
constant 3, gives the resolved value 3; the non-constant handle 200 and the
null handle give symbolic values that keep the handle. -/
theorem C10_construction_in_range_witness :
    (apInt128_neg5.signedValue = -5
      ∧ ValueOrInt.ofValue wideConstHost true 7 (some ⟨2⟩)
          = ⟨false, none, apInt128_neg5.signedValue⟩)
    ∧ ((APInt.ofNat64 3).signedValue = 3
      ∧ ValueOrInt.ofValue wideConstHost true 7 (some ⟨3⟩)
          = ⟨false, none, (APInt.ofNat64 3).signedValue⟩)
    ∧ ValueOrInt.ofValue wideConstHost false 7 (some ⟨200⟩) = ⟨true, some ⟨200⟩, 7⟩
    ∧ ValueOrInt.ofValue wideConstHost false 7 none = ⟨true, none, 7⟩ :=
  have hv : apInt128_neg5.signedValue = -5 := by
    norm_num [apInt128_neg5, APInt.signedValue]
  have hr : isInt64 apInt128_neg5.signedValue := by
    rw [hv]; decide
  ⟨⟨hv, ((C10_construction_in_range wideConstHost true 7 (some ⟨2⟩)).2.1
      ⟨2⟩ apInt128_neg5 rfl rfl).2.2.1 hr⟩,
   ⟨by decide, ((C10_construction_in_range wideConstHost true 7 (some ⟨3⟩)).2.1
      ⟨3⟩ (APInt.ofNat64 3) rfl rfl).2.2.2 (by decide)⟩,
   (C10_construction_in_range wideConstHost false 7 (some ⟨200⟩)).2.2
     (by rintro ⟨w, a, hw, ha⟩; cases hw; simp [wideConstHost, wideConstMatch, sampleMatch] at ha),
   (C10_construction_in_range wideConstHost false 7 none).2.2
     (by rintro ⟨w, a, hw, ha⟩; cases hw)⟩

/-! ## Further properties of the conflict test -/

theorem EffectInstance.isRead_iff (e : EffectInstance) :
    e.isRead = true ↔ e.effect = Effect.Read := by
  unfold EffectInstance.isRead
  cases e.effect <;> simp

/-- Enlarging the Before list or the After list preserves a conflict. -/
theorem WindowConflict.mono {mayAlias : EffectInstance → EffectInstance → Bool}
    {bs bs' afs afs' : List EffectInstance}
    (hb : ∀ e ∈ bs, e ∈ bs') (ha : ∀ e ∈ afs, e ∈ afs')
    (h : WindowConflict mayAlias bs afs) : WindowConflict mayAlias bs' afs' := by
  obtain ⟨b, hbm, a, ham, hc⟩ := h
  exact ⟨b, hb b hbm, a, ha a ham, hc⟩

/-- The value of `conflict` after the loops depends only on which effects occur
in the two lists. -/
theorem conflictLoop_congr_mem (mayAlias : EffectInstance → EffectInstance → Bool)
    (bs bs' afs afs' : List EffectInstance)
    (hb : ∀ e, e ∈ bs' ↔ e ∈ bs) (ha : ∀ e, e ∈ afs' ↔ e ∈ afs) :
    conflictLoop mayAlias bs' afs' = conflictLoop mayAlias bs afs := by
  have h : conflictLoop mayAlias bs' afs' = true ↔ conflictLoop mayAlias bs afs = true := by
    rw [conflictLoop_eq_true_iff, conflictLoop_eq_true_iff]
    exact ⟨WindowConflict.mono (fun e he => (hb e).1 he) (fun e he => (ha e).1 he),
      WindowConflict.mono (fun e he => (hb e).2 he) (fun e he => (ha e).2 he)⟩
  cases h1 : conflictLoop mayAlias bs' afs' <;> cases h2 : conflictLoop mayAlias bs afs <;>
    simp [h1, h2] at h ⊢

theorem allOperandsConstant_eq_false_iff (host : Host) (barrier : BarrierOp) :
    allOperandsConstant host barrier = false
      ↔ ∃ v ∈ barrier.operands, host.matchConstant v = none := by
  constructor
  · intro h
    by_contra hne
    have hall : allOperandsConstant host barrier = true := by
      rw [allOperandsConstant_iff]
      intro v hv
      cases hm : host.matchConstant v with
      | none => exact absurd ⟨v, hv, hm⟩ hne
      | some a => exact ⟨a, rfl⟩
    rw [h] at hall
    cases hall
  · rintro ⟨v, hv, hn⟩
    cases h : allOperandsConstant host barrier with
    | false => rfl
    | true =>
      obtain ⟨a, ha⟩ := (allOperandsConstant_iff host barrier).1 h v hv
      rw [hn] at ha
      cases ha

/-- `matchAndRewrite` reads of the barrier only its identity, its operands and,
through the structural guard, its parent; of the host only the matcher, the
alias relation and the four collected lists. -/
theorem matchAndRewrite_congr (host host' : Host) (BarrierOpt NotTopLevel : Bool)
    (barrier barrier' : BarrierOp) (rewriter : PatternRewriter)
    (hop : barrier'.op = barrier.op)
    (hc : allOperandsConstant host' barrier' = allOperandsConstant host barrier)
    (hg : guardBlocks NotTopLevel barrier' = guardBlocks NotTopLevel barrier)
    (hA : conflictLoop host'.mayAlias (host'.getEffectsBefore barrier'.op true)
            (host'.getEffectsAfter barrier'.op false)
          = conflictLoop host.mayAlias (host.getEffectsBefore barrier.op true)
            (host.getEffectsAfter barrier.op false))
    (hB : conflictLoop host'.mayAlias (host'.getEffectsBefore barrier'.op false)
            (host'.getEffectsAfter barrier'.op true)
          = conflictLoop host.mayAlias (host.getEffectsBefore barrier.op false)
            (host.getEffectsAfter barrier.op true)) :
    matchAndRewrite host' BarrierOpt NotTopLevel barrier' rewriter
      = matchAndRewrite host BarrierOpt NotTopLevel barrier rewriter := by
  unfold guardBlocks at hg
  unfold matchAndRewrite
  rw [hc, hg, hA, hB, hop]

/-! ## Claims about the guard, the loops and the full decision -/

/-- C11: structural guard.  With the flag on and an operand that is not an
integer constant, `BarrierElim<true>` returns failure and erases nothing when
the direct parent of the barrier is an `scf.parallel` or an `affine.parallel`,
whatever the effect windows contain; and `BarrierElim<false>` gives the same
outcome whatever the parent construct is. -/
theorem C11_structural_guard (host : Host) (barrier : BarrierOp) (rewriter : PatternRewriter)
    (hop : ∃ v ∈ barrier.operands, host.matchConstant v = none)
    (hp : barrier.parentOp = OpKind.scfParallel ∨ barrier.parentOp = OpKind.affineParallel) :
    matchAndRewrite host true true barrier rewriter = (LogicalResult.failure, rewriter)
      ∧ ∀ (BarrierOpt : Bool) (parent : OpKind),
          matchAndRewrite host BarrierOpt false ⟨barrier.op, barrier.operands, parent⟩ rewriter
            = matchAndRewrite host BarrierOpt false barrier rewriter := by
  constructor
  · have hc := (allOperandsConstant_eq_false_iff host barrier).2 hop
    have hg : guardBlocks true barrier = true := by
      unfold guardBlocks
      rcases hp with h | h <;> rw [h] <;> rfl
    rw [matchAndRewrite_of_nonconstant host true barrier rewriter hc]
    simp [hg]
  · intro BarrierOpt parent
    exact matchAndRewrite_congr host host BarrierOpt false barrier
      ⟨barrier.op, barrier.operands, parent⟩ rewriter rfl rfl rfl rfl rfl

/-- Instances of C11: a barrier on a non-constant value with both windows empty
is Kept in `NotTopLevel` mode inside an `scf.parallel` and inside an
`affine.parallel`, and Removed there in default mode. -/
theorem C11_structural_guard_witness :
    (matchAndRewrite (regionHost sameResource [] []) true true barrierDynScf freshRewriter
        = (LogicalResult.failure, freshRewriter)
      ∧ matchAndRewrite (regionHost sameResource [] []) true true barrierDynAffine freshRewriter
        = (LogicalResult.failure, freshRewriter))
    ∧ matchAndRewrite (regionHost sameResource [] []) true false barrierDynScf freshRewriter
        = (LogicalResult.success, ⟨[RewriterAction.eraseOp 7]⟩)
    ∧ matchAndRewrite (regionHost sameResource [] []) true false barrierDynScf freshRewriter
        = matchAndRewrite (regionHost sameResource [] []) true false barrierDyn freshRewriter :=
  ⟨⟨(C11_structural_guard (regionHost sameResource [] []) barrierDynScf freshRewriter
        ⟨⟨200⟩, List.mem_cons_self _ _, rfl⟩ (Or.inl rfl)).1,
    (C11_structural_guard (regionHost sameResource [] []) barrierDynAffine freshRewriter
        ⟨⟨200⟩, List.mem_cons_self _ _, rfl⟩ (Or.inr rfl)).1⟩,
   by decide,
   ((C11_structural_guard (regionHost sameResource [] []) barrierDynScf freshRewriter
        ⟨⟨200⟩, List.mem_cons_self _ _, rfl⟩ (Or.inl rfl)).2 true (OpKind.other 0)).symm⟩

/-- C12: order and duplicates are irrelevant.  If the collectors are replaced by
collectors whose lists contain the same effects (for instance the same lists
permuted, or with elements repeated), the conflict flag of every window and the
outcome of `matchAndRewrite` are unchanged. -/
theorem C12_order_duplicates_irrelevant (host : Host)
    (before' after' : Nat → Bool → List EffectInstance)
    (BarrierOpt NotTopLevel : Bool) (barrier : BarrierOp) (rewriter : PatternRewriter)
    (hb : ∀ op s e, e ∈ before' op s ↔ e ∈ host.getEffectsBefore op s)
    (ha : ∀ op s e, e ∈ after' op s ↔ e ∈ host.getEffectsAfter op s) :
    (∀ s t, conflictLoop host.mayAlias (before' barrier.op s) (after' barrier.op t)
        = conflictLoop host.mayAlias (host.getEffectsBefore barrier.op s)
            (host.getEffectsAfter barrier.op t))
      ∧ matchAndRewrite ⟨host.matchConstant, before', after', host.mayAlias⟩
          BarrierOpt NotTopLevel barrier rewriter
        = matchAndRewrite host BarrierOpt NotTopLevel barrier rewriter := by
  have hflag : ∀ s t, conflictLoop host.mayAlias (before' barrier.op s) (after' barrier.op t)
      = conflictLoop host.mayAlias (host.getEffectsBefore barrier.op s)
          (host.getEffectsAfter barrier.op t) :=
    fun s t => conflictLoop_congr_mem host.mayAlias _ _ _ _ (hb barrier.op s) (ha barrier.op t)
  exact ⟨hflag, matchAndRewrite_congr host ⟨host.matchConstant, before', after', host.mayAlias⟩
    BarrierOpt NotTopLevel barrier barrier rewriter rfl rfl rfl (hflag true false)
    (hflag false true)⟩

/-- Instance of C12: Before `[Write 1, Read 2]` and After `[Read 1, Read 2]`
against the permuted and repeated lists `[Read 2, Write 1, Read 2]` and
`[Read 2, Read 2, Read 1]`. -/
theorem C12_order_duplicates_irrelevant_witness :
    conflictLoop sameResource [readOn 2, writeOn 1, readOn 2] [readOn 2, readOn 2, readOn 1]
        = conflictLoop sameResource [writeOn 1, readOn 2] [readOn 1, readOn 2]
      ∧ matchAndRewrite
          ⟨sampleMatch, fun _ _ => [readOn 2, writeOn 1, readOn 2],
            fun _ _ => [readOn 2, readOn 2, readOn 1], sameResource⟩
          true false barrierDyn freshRewriter
        = matchAndRewrite (regionHost sameResource [writeOn 1, readOn 2] [readOn 1, readOn 2])
          true false barrierDyn freshRewriter :=
  have h := C12_order_duplicates_irrelevant
    (regionHost sameResource [writeOn 1, readOn 2] [readOn 1, readOn 2])
    (fun _ _ => [readOn 2, writeOn 1, readOn 2]) (fun _ _ => [readOn 2, readOn 2, readOn 1])
    true false barrierDyn freshRewriter
    (by intro op s e; simp [regionHost]; tauto)
    (by intro op s e; simp [regionHost]; tauto)
  ⟨h.1 true false, h.2⟩

/-- C13: the nested loops compute the declarative conflict predicate.  After the
double loop `conflict` is true if and only if there are `b` in `beforeEffects`
and `a` in `afterEffects` with `mayAlias(b, a)` and not both of them Reads; so
every may-aliasing pair of any other kind combination (Write/Write, Read/Write,
Write/Read, anything with Allocate or Free) makes `conflict` true. -/
theorem C13_loop_computes_conflict (mayAlias : EffectInstance → EffectInstance → Bool)
    (beforeEffects afterEffects : List EffectInstance) :
    (conflictLoop mayAlias beforeEffects afterEffects = true
        ↔ ∃ b ∈ beforeEffects, ∃ a ∈ afterEffects,
            mayAlias b a = true ∧ ¬ (b.effect = Effect.Read ∧ a.effect = Effect.Read))
      ∧ ∀ b ∈ beforeEffects, ∀ a ∈ afterEffects, mayAlias b a = true →
          (b.effect ≠ Effect.Read ∨ a.effect ≠ Effect.Read) →
          conflictLoop mayAlias beforeEffects afterEffects = true := by
  have hiff : conflictLoop mayAlias beforeEffects afterEffects = true
      ↔ ∃ b ∈ beforeEffects, ∃ a ∈ afterEffects,
          mayAlias b a = true ∧ ¬ (b.effect = Effect.Read ∧ a.effect = Effect.Read) := by
    rw [conflictLoop_eq_true_iff]
    unfold WindowConflict ConflictingPair
    simp only [EffectInstance.isRead_iff]
  refine ⟨hiff, ?_⟩
  intro b hb a ha hm hk
  refine hiff.2 ⟨b, hb, a, ha, hm, ?_⟩
  rintro ⟨h1, h2⟩
  rcases hk with h | h
  · exact h h1
  · exact h h2

/-- C14: kept when load-bearing.  With the flag on, a barrier with an operand
that is not an integer constant and with a conflicting pair in window A and in
window B is Kept (failure, nothing erased).  And in general `matchAndRewrite`
returns success exactly when the flag is on and either all operands are
constants, or the guard does not block and window A or window B is free of
conflicts. -/
theorem C14_kept_when_load_bearing (host : Host) (BarrierOpt NotTopLevel : Bool)
    (barrier : BarrierOp) (rewriter : PatternRewriter) :
    ((∃ v ∈ barrier.operands, host.matchConstant v = none) →
        windowAConflict host barrier → windowBConflict host barrier →
        matchAndRewrite host true NotTopLevel barrier rewriter
          = (LogicalResult.failure, rewriter))
      ∧ ((matchAndRewrite host BarrierOpt NotTopLevel barrier rewriter).1
            = LogicalResult.success
          ↔ BarrierOpt = true
            ∧ ((∀ v ∈ barrier.operands, ∃ a, host.matchConstant v = some a)
              ∨ (guardBlocks NotTopLevel barrier = false
                  ∧ (¬ windowAConflict host barrier ∨ ¬ windowBConflict host barrier)))) := by
  constructor
  · intro hop hA hB
    rw [matchAndRewrite_of_nonconstant host NotTopLevel barrier rewriter
      ((allOperandsConstant_eq_false_iff host barrier).2 hop)]
    apply if_neg
    rintro ⟨-, h | h⟩
    · exact h hA
    · exact h hB
  · rw [← allOperandsConstant_iff]
    cases BarrierOpt with
    | false => simp [matchAndRewrite]
    | true =>
      cases hc : allOperandsConstant host barrier with
      | true =>
        rw [matchAndRewrite_of_constant host NotTopLevel barrier rewriter hc]
        simp
      | false =>
        rw [matchAndRewrite_of_nonconstant host NotTopLevel barrier rewriter hc]
        by_cases h : guardBlocks NotTopLevel barrier = false
            ∧ (¬ windowAConflict host barrier ∨ ¬ windowBConflict host barrier)
        · rw [if_pos h]
          simp [h]
        · rw [if_neg h]
          simp [h]

/-- Instance of C14: the region `[Write 1, Barrier, Read 1]`, default mode, the
barrier synchronising on the non-constant value 200, is Kept. -/
theorem C14_kept_when_load_bearing_witness :
    windowAConflict (regionHost sameResource [writeOn 1] [readOn 1]) barrierDyn
      ∧ windowBConflict (regionHost sameResource [writeOn 1] [readOn 1]) barrierDyn
      ∧ matchAndRewrite (regionHost sameResource [writeOn 1] [readOn 1]) true false
          barrierDyn freshRewriter = (LogicalResult.failure, freshRewriter) :=
  ⟨by decide, by decide,
    (C14_kept_when_load_bearing (regionHost sameResource [writeOn 1] [readOn 1]) true false
      barrierDyn freshRewriter).1 ⟨⟨200⟩, List.mem_cons_self _ _, rfl⟩ (by decide) (by decide)⟩

/-- C15: a barrier with no operands passes the all-operands-constant test
vacuously: with the flag on it is Removed (success, `eraseOp(barrier)` the only
request) for every host, hence every content of the windows and every
`mayAlias`, for every parent construct and both `NotTopLevel` modes. -/
theorem C15_no_operands_removed (host : Host) (NotTopLevel : Bool) (op : Nat)
    (parent : OpKind) (rewriter : PatternRewriter) :
    allOperandsConstant host ⟨op, [], parent⟩ = true
      ∧ matchAndRewrite host true NotTopLevel ⟨op, [], parent⟩ rewriter
        = (LogicalResult.success, ⟨rewriter.actions ++ [RewriterAction.eraseOp op]⟩)
      ∧ matchAndRewrite (regionHost (fun _ _ => true) [writeOn 1] [readOn 1]) true true
          barrierNoOperands freshRewriter
        = (LogicalResult.success, ⟨[RewriterAction.eraseOp 7]⟩) := by
  have hc : allOperandsConstant host ⟨op, [], parent⟩ = true := rfl
  exact ⟨hc, matchAndRewrite_of_constant host NotTopLevel ⟨op, [], parent⟩ rewriter hc, rfl⟩

/-- C16: an empty window side forces removal.  With the flag on and the guard
not blocking, if the Before list collected with `stopAtBarrier = true`, or the
After list collected with `stopAtBarrier = false`, or the Before list collected
with `stopAtBarrier = false`, or the After list collected with
`stopAtBarrier = true` is empty, `matchAndRewrite` returns success and erases
the barrier, whatever the other lists contain. -/
theorem C16_empty_side_removes (host : Host) (NotTopLevel : Bool)
    (barrier : BarrierOp) (rewriter : PatternRewriter)
    (hg : guardBlocks NotTopLevel barrier = false)
    (he : host.getEffectsBefore barrier.op true = []
          ∨ host.getEffectsAfter barrier.op false = []
          ∨ host.getEffectsBefore barrier.op false = []
          ∨ host.getEffectsAfter barrier.op true = []) :
    matchAndRewrite host true NotTopLevel barrier rewriter
      = (LogicalResult.success, rewriter.eraseOp barrier.op) := by
  have hw : ¬ windowAConflict host barrier ∨ ¬ windowBConflict host barrier := by
    unfold windowAConflict windowBConflict WindowConflict
    rcases he with h | h | h | h
    · left; rw [h]; simp
    · left; rw [h]; simp
    · right; rw [h]; simp
    · right; rw [h]; simp
  cases hc : allOperandsConstant host barrier with
  | true => exact matchAndRewrite_of_constant host NotTopLevel barrier rewriter hc
  | false =>
    rw [matchAndRewrite_of_nonconstant host NotTopLevel barrier rewriter hc]
    exact if_pos ⟨hg, hw⟩

/-- Instance of C16: the region `[Write 1, Barrier, *, Write 1, Barrier, Write 1]`,
`*` the barrier under test: the Before list stopped at the barrier is empty
while the three other lists hold writes that alias. -/
theorem C16_empty_side_removes_witness :
    (twoWindowHost sameResource [] [writeOn 1] [writeOn 1] [writeOn 1]).getEffectsBefore
        barrierDyn.op true = []
      ∧ windowBConflict (twoWindowHost sameResource [] [writeOn 1] [writeOn 1] [writeOn 1])
          barrierDyn
      ∧ matchAndRewrite (twoWindowHost sameResource [] [writeOn 1] [writeOn 1] [writeOn 1])
          true false barrierDyn freshRewriter
        = (LogicalResult.success, ⟨[RewriterAction.eraseOp 7]⟩) :=
  ⟨rfl, by decide,
    C16_empty_side_removes (twoWindowHost sameResource [] [writeOn 1] [writeOn 1] [writeOn 1])
      false barrierDyn freshRewriter (by decide) (Or.inl rfl)⟩

/-- C17: monotonicity.  The conflict flag of a window is monotone in both lists:
if every element of `before` is in `before'` and every element of `after` is in
`after'`, a conflict for `(before, after)` is a conflict for `(before', after')`.
Hence, for a barrier with an operand that is not a constant, replacing the
collectors by collectors that return larger lists never turns Kept into
Removed. -/
theorem C17_conflict_monotone (host : Host)
    (before' after' : Nat → Bool → List EffectInstance)
    (BarrierOpt NotTopLevel : Bool) (barrier : BarrierOp) (rewriter : PatternRewriter)
    (hop : ∃ v ∈ barrier.operands, host.matchConstant v = none)
    (hb : ∀ op s, ∀ e ∈ host.getEffectsBefore op s, e ∈ before' op s)
    (ha : ∀ op s, ∀ e ∈ host.getEffectsAfter op s, e ∈ after' op s)
    (hk : (matchAndRewrite host BarrierOpt NotTopLevel barrier rewriter).1
            = LogicalResult.failure) :
    (∀ (mayAlias : EffectInstance → EffectInstance → Bool)
        (before before2 after after2 : List EffectInstance),
        (∀ e ∈ before, e ∈ before2) → (∀ e ∈ after, e ∈ after2) →
        conflictLoop mayAlias before after = true →
        conflictLoop mayAlias before2 after2 = true)
      ∧ matchAndRewrite ⟨host.matchConstant, before', after', host.mayAlias⟩
          BarrierOpt NotTopLevel barrier rewriter = (LogicalResult.failure, rewriter) := by
  constructor
  · intro mayAlias before before2 after after2 h1 h2 hc
    rw [conflictLoop_eq_true_iff] at hc ⊢
    exact WindowConflict.mono h1 h2 hc
  · cases BarrierOpt with
    | false => simp [matchAndRewrite]
    | true =>
      have hc := (allOperandsConstant_eq_false_iff host barrier).2 hop
      have hc' : allOperandsConstant ⟨host.matchConstant, before', after', host.mayAlias⟩
          barrier = false := hc
      rw [matchAndRewrite_of_nonconstant host NotTopLevel barrier rewriter hc] at hk
      rw [matchAndRewrite_of_nonconstant _ NotTopLevel barrier rewriter hc']
      apply if_neg
      rintro ⟨hg, hw⟩
      have hpos : guardBlocks NotTopLevel barrier = false
          ∧ (¬ windowAConflict host barrier ∨ ¬ windowBConflict host barrier) := by
        refine ⟨hg, ?_⟩
        rcases hw with h | h
        · left
          exact fun hA => h (WindowConflict.mono (hb barrier.op true) (ha barrier.op false) hA)
        · right
          exact fun hB => h (WindowConflict.mono (hb barrier.op false) (ha barrier.op true) hB)
      rw [if_pos hpos] at hk
      cases hk

/-- Instance of C17: the Kept barrier of `[Write 1, Barrier, Read 1]` stays Kept
when a `Read 2` is added before and a `Write 3` after. -/
theorem C17_conflict_monotone_witness :
    (matchAndRewrite (regionHost sameResource [writeOn 1] [readOn 1]) true false
        barrierDyn freshRewriter).1 = LogicalResult.failure
      ∧ matchAndRewrite
          ⟨sampleMatch, fun _ _ => [readOn 2, writeOn 1], fun _ _ => [readOn 1, writeOn 3],
            sameResource⟩
          true false barrierDyn freshRewriter = (LogicalResult.failure, freshRewriter) :=
  ⟨by decide,
    (C17_conflict_monotone (regionHost sameResource [writeOn 1] [readOn 1])
      (fun _ _ => [readOn 2, writeOn 1]) (fun _ _ => [readOn 1, writeOn 3])
      true false barrierDyn freshRewriter ⟨⟨200⟩, List.mem_cons_self _ _, rfl⟩
      (by intro op s e he; simp [regionHost] at he; simp [he])
      (by intro op s e he; simp [regionHost] at he; simp [he])
      (by decide)).2⟩

/-! ## Further claims about `ValueOrInt` -/

/-- C18: `ValueOrInt(size_t i)`, for a 64-bit `size_t`, is tagged resolved with a
null handle and `i_val` equal to `i` reinterpreted as a signed 64-bit integer:
`i` itself when `i < 2^63`, `i - 2^64` otherwise.  For `i < 2^63` the value
compares `== i` and `>= 0`; for `i >= 2^63` the stored integer is `i - 2^64`,
`>= 0` returns false and `< 0` returns true. -/
theorem C18_size_constructor (i : Nat) (hi : i < 2 ^ 64) :
    ValueOrInt.ofSize i
        = ⟨false, none, if i < 2 ^ 63 then (i : Int) else (i : Int) - 2 ^ 64⟩
      ∧ isInt64 (ValueOrInt.ofSize i).i_val
      ∧ (i < 2 ^ 63 →
          (ValueOrInt.ofSize i).eq (i : Int) = true ∧ (ValueOrInt.ofSize i).ge 0 = true)
      ∧ (2 ^ 63 ≤ i →
          (ValueOrInt.ofSize i).i_val = (i : Int) - 2 ^ 64
            ∧ (ValueOrInt.ofSize i).ge 0 = false ∧ (ValueOrInt.ofSize i).lt 0 = true) := by
  have hval : toInt64 (i : Int) = if i < 2 ^ 63 then (i : Int) else (i : Int) - 2 ^ 64 := by
    unfold toInt64
    split_ifs with h <;> omega
  have hof : ValueOrInt.ofSize i
      = ⟨false, none, if i < 2 ^ 63 then (i : Int) else (i : Int) - 2 ^ 64⟩ := by
    unfold ValueOrInt.ofSize
    rw [hval]
  refine ⟨hof, isInt64_toInt64 _, ?_, ?_⟩
  · intro h
    rw [hof, if_pos h]
    simp [ValueOrInt.eq, ValueOrInt.ge]
  · intro h
    have hn : ¬ i < 2 ^ 63 := by omega
    rw [hof, if_neg hn]
    refine ⟨rfl, ?_, ?_⟩
    · simp only [ValueOrInt.ge, Bool.false_eq_true, if_false, decide_eq_false_iff_not]
      omega
    · simp only [ValueOrInt.lt, Bool.false_eq_true, if_false, decide_eq_true_eq]
      omega

/-- Instances of C18: `ValueOrInt(size_t(5))` holds 5, and
`ValueOrInt(size_t(-1))`, that is `i = 2^64 - 1`, holds `-1`. -/
theorem C18_size_constructor_witness :
    (ValueOrInt.ofSize 5 = ⟨false, none, 5⟩ ∧ (ValueOrInt.ofSize 5).ge 0 = true)
      ∧ (ValueOrInt.ofSize (2 ^ 64 - 1) = ⟨false, none, -1⟩
        ∧ (ValueOrInt.ofSize (2 ^ 64 - 1)).ge 0 = false
        ∧ (ValueOrInt.ofSize (2 ^ 64 - 1)).lt 0 = true) :=
  have h5 := C18_size_constructor 5 (by decide)
  have hm := C18_size_constructor (2 ^ 64 - 1) (by decide)
  ⟨⟨h5.1.trans (by decide), (h5.2.2.1 (by decide)).2⟩,
   ⟨hm.1.trans (by decide), (hm.2.2.2 (by decide)).2.1, (hm.2.2.2 (by decide)).2.2⟩⟩

/-- C19: the five `int64_t` operators are mutually consistent.  For every
`ValueOrInt` `x` and integer `v`: `(x <= v) = (x < v) || (x == v)`,
`(x >= v) = (x > v) || (x == v)`, `x < v` and `x > v` are never both true;
exactly one of `x < v`, `x == v`, `x > v` is true when `x` is resolved and none
is when `x` is symbolic, so that `!(x < v)` does not imply `x >= v`. -/
theorem C19_operators_consistent (x : ValueOrInt) (v : Int) :
    x.le v = (x.lt v || x.eq v)
      ∧ x.ge v = (x.gt v || x.eq v)
      ∧ ¬ (x.lt v = true ∧ x.gt v = true)
      ∧ (x.isValue = false →
          (x.lt v = true ∧ x.eq v = false ∧ x.gt v = false)
            ∨ (x.lt v = false ∧ x.eq v = true ∧ x.gt v = false)
            ∨ (x.lt v = false ∧ x.eq v = false ∧ x.gt v = true))
      ∧ (x.isValue = true →
          x.lt v = false ∧ x.eq v = false ∧ x.gt v = false
            ∧ x.le v = false ∧ x.ge v = false) := by
  obtain ⟨tag, handle, k⟩ := x
  cases tag with
  | true => simp [ValueOrInt.le, ValueOrInt.lt, ValueOrInt.eq, ValueOrInt.ge, ValueOrInt.gt]
  | false =>
    simp only [ValueOrInt.le, ValueOrInt.lt, ValueOrInt.eq, ValueOrInt.ge, ValueOrInt.gt,
      Bool.false_eq_true, if_false]
    rcases lt_trichotomy k v with h | h | h
    · have h1 : ¬ k = v := by omega
      have h2 : ¬ k > v := by omega
      have h3 : k ≤ v := by omega
      have h4 : ¬ k ≥ v := by omega
      simp [h, h1, h2, h3, h4]
    · subst h
      simp
    · have h1 : ¬ k = v := by omega
      have h2 : ¬ k < v := by omega
      have h3 : ¬ k ≤ v := by omega
      have h4 : k ≥ v := by omega
      simp [h, h1, h2, h3, h4]

/-- Instances of C19: the resolved value 3 against 3 and against 7, and a
symbolic value whose `i_val` happens to hold 3, for which both `x < 3` and
`x >= 3` are false. -/
theorem C19_operators_consistent_witness :
    ((ValueOrInt.mk false none 3).lt 3 = false ∧ (ValueOrInt.mk false none 3).eq 3 = true
        ∧ (ValueOrInt.mk false none 3).gt 3 = false)
      ∧ ((ValueOrInt.mk false none 3).lt 7 = true ∧ (ValueOrInt.mk false none 3).le 7 = true)
      ∧ ((ValueOrInt.mk true (some ⟨200⟩) 3).lt 3 = false
        ∧ (ValueOrInt.mk true (some ⟨200⟩) 3).ge 3 = false) :=
  have hs := (C19_operators_consistent (ValueOrInt.mk true (some ⟨200⟩) 3) 3).2.2.2.2 rfl
  ⟨by decide, by decide, hs.1, hs.2.2.2.2⟩

end Polygeist
